import Mathlib

/-!
Shallow embedding of `src/reportseff/output_renderer.py` (classes
`Output_Renderer` and `Column_Formatter`) and proofs about it.

Python strings are modelled as Lean `String` (a sequence of unicode code
points, like Python's `str`); the Python primitives the source uses
(`str.split`, `str.casefold`, slicing, `int()`, `str.format` padding,
`click.style`) are re-implemented below over `List Char`.  `casefold` and
`int()` are modelled on their ASCII fragment: Python additionally
case-folds non-ASCII letters and accepts non-ASCII digits/whitespace in
`int()`, which no field name or format token in this code base uses.
-/

namespace Reportseff

/-- Python `str.split(sep)` for a one-character separator: splits at every
occurrence, keeping empty pieces, and returns `[s]` when the separator does
not occur (so the result is never empty). -/
def splitAux (sep : Char) : List Char → List Char → List (List Char)
  | [], acc => [acc.reverse]
  | c :: rest, acc =>
    if c = sep then acc.reverse :: splitAux sep rest []
    else splitAux sep rest (c :: acc)

def pySplit (sep : Char) (s : String) : List String :=
  (splitAux sep s.toList []).map String.mk

/-- ASCII lower-casing of one character; on ASCII input Python `casefold`,
`lower` and this function agree. -/
def pyLowerChar (c : Char) : Char :=
  if 'A' ≤ c ∧ c ≤ 'Z' then Char.ofNat (c.toNat + 32) else c

/-- Python `str.casefold`, modelled on ASCII. -/
def casefold (s : String) : String := String.mk (s.toList.map pyLowerChar)

/-- Python `s[:k]` for an `int` bound `k`: for `k ≥ 0` the first `k`
characters; for `k < 0` everything but the last `|k|` characters (clamped
at the empty string). -/
def pySliceTo (s : String) (k : Int) : String :=
  if 0 ≤ k then String.mk (s.toList.take k.toNat)
  else String.mk (s.toList.take (s.toList.length - k.natAbs))

/-- ASCII whitespace stripped by Python `int()`. -/
def isPySpace (c : Char) : Bool :=
  c = ' ' || c = '\t' || c = '\n' || c = '\r' || c = Char.ofNat 11 || c = Char.ofNat 12

/-- Adjacent underscore pair, which Python's integer grammar rejects. -/
def hasDoubleUnderscore (ds : List Char) : Bool :=
  (ds.zip ds.tail).any (fun p => p.1 = '_' && p.2 = '_')

/-- Digit part of Python's integer literal grammar: a nonempty run of
decimal digits in which single underscores may separate digits. -/
def digitGroupOk (ds : List Char) : Bool :=
  !ds.isEmpty &&
    ds.all (fun c => c.isDigit || c = '_') &&
    ds.head?.all Char.isDigit &&
    ds.getLast?.all Char.isDigit &&
    !hasDoubleUnderscore ds

def digitsVal (ds : List Char) : Nat :=
  ds.foldl (fun acc c => acc * 10 + (c.toNat - '0'.toNat)) 0

/-- Python `int(s)` on ASCII input: optional surrounding whitespace, an
optional sign, then digits optionally separated by single underscores.
Returns `none` where Python raises `ValueError`. -/
def pyInt (s : String) : Option Int :=
  let t := ((s.toList.dropWhile isPySpace).reverse.dropWhile isPySpace).reverse
  let signAndDigits : Int × List Char :=
    match t with
    | '+' :: rest => (1, rest)
    | '-' :: rest => (-1, rest)
    | _ => (1, t)
  if digitGroupOk signAndDigits.2 then
    some (signAndDigits.1 * (digitsVal (signAndDigits.2.filter (fun c => c ≠ '_')) : Int))
  else none

/-- Exceptions the source can raise: `ValueError` from a bad format token,
`IndexError` from indexing the empty post-percent string, `ValueError` from
an unknown title, `ValueError` from formatting with unset width, and the
`ValueError` `str.format` raises when a negative width puts a sign
character into a string format specifier. -/
inductive RenderErr where
  | formatError (token : String)
  | indexError
  | unknownTitle (title : String)
  | unsetWidth (title : String)
  | signInFormatSpec
deriving DecidableEq, Repr

/-- State of one display column: `Column_Formatter`'s attributes `title`,
`alignment` and `width` (`None` until computed). Python's `int` is
unbounded, hence `Int`. -/
structure ColumnFormatter where
  title : String
  alignment : Char
  width : Option Int
deriving DecidableEq, Repr

/-- Column_Formatter.__init__: parse one token of the form
`NAME[%[ALIGN]WIDTH]`.  Mirrors the source: split on percent (pieces after
the second are silently ignored), default alignment caret, width `None`;
when a percent section exists, indexing its first character raises
`IndexError` if it is empty, a leading alignment character is consumed, and
any nonempty remainder goes through `int()`, whose `ValueError` is re-raised
as the format-token error. -/
def Column_Formatter_init (token : String) : Except RenderErr ColumnFormatter :=
  let tokens := pySplit '%' token
  let title := tokens.headD ""
  match tokens with
  | [] => .ok ⟨title, '^', none⟩
  | [_] => .ok ⟨title, '^', none⟩
  | _ :: fs :: _ =>
    match fs.toList with
    | [] => .error .indexError
    | c :: rest =>
      let isAlign := c = '<' || c = '^' || c = '>'
      let alignment := if isAlign then c else '^'
      let fs2 := if isAlign then String.mk rest else fs
      if fs2 = "" then .ok ⟨title, alignment, none⟩
      else
        match pyInt fs2 with
        | some w => .ok ⟨title, alignment, some w⟩
        | none => .error (.formatError token)

/-- Column_Formatter.validate_title: first case-insensitive match wins, the
formatter's title is overwritten with the matching entry's original casing,
and that entry is returned; no match raises. -/
def validate_title (cf : ColumnFormatter) (valid_titles : List String) :
    Except RenderErr (ColumnFormatter × String) :=
  match valid_titles.find? (fun t => casefold t == casefold cf.title) with
  | some t => .ok ({ cf with title := t }, t)
  | none => .error (.unknownTitle cf.title)

/-- Column_Formatter.compute_width: no-op when width is already set,
otherwise the running maximum of the title length and every entry length. -/
def compute_width (cf : ColumnFormatter) (entries : List String) : ColumnFormatter :=
  match cf.width with
  | some _ => cf
  | none =>
    let w := entries.foldl
      (fun w e => if w > (e.toList.length : Int) then w else (e.toList.length : Int))
      (cf.title.toList.length : Int)
    { cf with width := some w }

def spaces (n : Nat) : String := String.mk (List.replicate n ' ')

/-- Python `format(s, align ++ width)` for the string presentation type with
the default space fill: pad to the target width on the side the alignment
character selects; centering puts the extra space on the right. -/
def padAlign (alignment : Char) (w : Nat) (s : String) : String :=
  let n := w - s.toList.length
  if alignment = '<' then s ++ spaces n
  else if alignment = '>' then spaces n ++ s
  else spaces (n / 2) ++ s ++ spaces (n - n / 2)

/-- Column_Formatter.format_entry with no color request — the only form any
caller in the source uses (`format_title` passes no color).  Unset width
raises; otherwise the entry is sliced to `width` first, and a negative
width then reaches `str.format` as a sign character inside a string format
specifier, which raises `ValueError` there. -/
def format_entry (cf : ColumnFormatter) (entry : String) : Except RenderErr String :=
  match cf.width with
  | none => .error (.unsetWidth cf.title)
  | some w =>
    let entry2 := pySliceTo entry w
    if w < 0 then .error .signInFormatSpec
    else .ok (padAlign cf.alignment w.toNat entry2)

/-- click.style(text, bold=True): ANSI bold introducer and reset around the
text. -/
def clickStyleBold (s : String) : String := "\x1b[1m" ++ s ++ "\x1b[0m"

/-- Column_Formatter.format_title: the formatted title, bold. -/
def format_title (cf : ColumnFormatter) : Except RenderErr String :=
  (format_entry cf cf.title).map clickStyleBold

def always_included : List String := ["JobID%>", "State"]

def required : List String := ["JobID", "JobIDRaw", "State"]

/-- The derived-value table, as an association list in the source's
(insertion) key order. -/
def derived : List (String × List String) :=
  [("CPUEff", ["TotalCPU", "AllocCPUS", "Elapsed"]),
   ("MemEff", ["REQMEM", "NNodes", "AllocCPUS", "MaxRSS"]),
   ("TimeEff", ["Elapsed", "Timelimit"])]

def derivedKeys : List String := derived.map (fun p => p.1)

def derivedLookup (c : String) : Option (List String) :=
  (derived.find? (fun p => p.1 == c)).map (fun p => p.2)

/-- Output_Renderer.build_formatters: split the format string on commas,
drop empty tokens, build a formatter from each; the first bad token's
exception propagates. -/
def build_formatters (format_str : String) : Except RenderErr (List ColumnFormatter) :=
  ((pySplit ',' format_str).filter (fun t => t != "")).mapM Column_Formatter_init

/-- Output_Renderer.validate_formatters: validate every formatter in order
(first failure propagates) and collect the returned query column names. -/
def validate_formatters (fmts : List ColumnFormatter) (valid_titles : List String) :
    Except RenderErr (List ColumnFormatter × List String) := do
  let pairs ← fmts.mapM (fun f => validate_title f valid_titles)
  pure (pairs.map (fun p => p.1), pairs.map (fun p => p.2))

/-- Output_Renderer.add_included: walk the always-included tokens in
reverse; whenever the token's bare name (before any percent) is not the
title of a present formatter, build a formatter from the token and insert
it at position zero. -/
def add_included (fmts : List ColumnFormatter) : Except RenderErr (List ColumnFormatter) :=
  always_included.reverse.foldlM
    (fun fs title =>
      let name := (pySplit '%' title).headD ""
      if fs.any (fun cf => cf.title == name) then pure fs
      else do
        let cf ← Column_Formatter_init title
        pure (cf :: fs))
    fmts

/-- Output_Renderer.correct_columns: replace each derived key by its
dependency list, keep other names, append the required names, and remove
duplicates (the source goes through a Python set, so only the resulting
set of names is meaningful, not their order). -/
def correct_columns (query_columns : List String) : List String :=
  (((query_columns.map (fun c => (derivedLookup c).getD [c])).flatten) ++ required).dedup

/-- Rendering plan: the fields of `Output_Renderer` that survive
construction. -/
structure Output_Renderer where
  formatters : List ColumnFormatter
  query_columns : List String
deriving DecidableEq, Repr

def default_format_str : String := "JobID%>,State,Elapsed%>,CPUEff,MemEff"

/-- Output_Renderer.__init__.  The constructor mutates the caller's
`valid_titles` list in place (`valid_titles += self.derived.keys()`); the
first component of the result is the final state of that list, next to the
constructed renderer or the exception.  `build_formatters` runs before the
mutation, so a format-parse failure leaves the caller's list untouched,
while a title-validation failure happens after it. -/
def Output_Renderer_init (valid_titles : List String) (format_str : String) :
    List String × Except RenderErr Output_Renderer :=
  match build_formatters format_str with
  | .error e => (valid_titles, .error e)
  | .ok fmts =>
    let valid2 := valid_titles ++ derivedKeys
    (valid2, do
      let pair ← validate_formatters fmts valid2
      let fmts2 ← add_included pair.1
      pure ⟨fmts2, correct_columns pair.2⟩)

/-- Alignment character the parser stores for a percent section starting
with character `c`: `c` itself when it is one of the three alignment
characters, caret otherwise. -/
def alignOf (c : Char) : Char :=
  if c = '<' || c = '^' || c = '>' then c else '^'

/-- Remainder of a percent section starting with `c` after the optional
leading alignment character is consumed. -/
def restAfterAlign (c : Char) (rest2 : List Char) : String :=
  if c = '<' || c = '^' || c = '>' then String.mk rest2 else String.mk (c :: rest2)

/-- Modelled from the spec: the words "a non-negative decimal integer" read
literally, i.e. a nonempty string of decimal digits; used only to compare
the spec's stated failure condition with what the code accepts. -/
def specNonNegDecimal (s : String) : Bool :=
  !s.toList.isEmpty && s.toList.all Char.isDigit

/-- Job records come from the external `reportseff.job` module;
`format_jobs` receives them but (as of this source) never inspects them. -/
structure Job

/-- Output_Renderer.format_jobs as written in the source: joins the bold
column titles with two spaces and returns that single line (the body is
marked unfinished with a TODO; the jobs argument is never used). -/
def format_jobs (r : Output_Renderer) (jobs : List Job) : Except RenderErr String := do
  let titles ← r.formatters.mapM format_title
  pure (String.intercalate "  " titles)



lemma splitAux_ne_nil (sep : Char) (l acc : List Char) : splitAux sep l acc ≠ [] := by
  induction l generalizing acc with
  | nil => simp [splitAux]
  | cons c rest ih =>
    simp only [splitAux]
    split
    · simp
    · exact ih _

lemma pySplit_ne_nil (sep : Char) (s : String) : pySplit sep s ≠ [] := by
  unfold pySplit
  intro h
  exact splitAux_ne_nil sep s.toList [] (by simpa using h)

lemma init_one (token t0 : String) (h : pySplit '%' token = [t0]) :
    Column_Formatter_init token = .ok ⟨t0, '^', none⟩ := by
  unfold Column_Formatter_init
  rw [h]
  rfl

lemma init_empty_sec (token t0 : String) (rest : List String)
    (h : pySplit '%' token = t0 :: "" :: rest) :
    Column_Formatter_init token = .error RenderErr.indexError := by
  unfold Column_Formatter_init
  rw [h]
  rfl

lemma init_cons_cons (token t0 : String) (c : Char) (rest2 : List Char) (rest : List String)
    (h : pySplit '%' token = t0 :: String.mk (c :: rest2) :: rest) :
    Column_Formatter_init token =
      (if restAfterAlign c rest2 = "" then .ok ⟨t0, alignOf c, none⟩
       else
         match pyInt (restAfterAlign c rest2) with
         | some w => .ok ⟨t0, alignOf c, some w⟩
         | none => .error (RenderErr.formatError token)) := by
  unfold Column_Formatter_init
  rw [h]
  rfl

lemma string_eq_mk_toList (s : String) : s = String.mk s.toList := rfl

/-- C2 counterexample: parsing the token `JobID%` does not succeed with
default alignment and unset width as the claim states; indexing the empty
post-percent string raises IndexError. -/
theorem c2_counterexample :
    Column_Formatter_init "JobID%" = .error RenderErr.indexError := by rfl

/-- C2 (amended): for every format token whose percent section is empty
(the piece after the first percent is the empty string), parsing fails
with an IndexError — no column specification is produced at all. -/
theorem c2_empty_percent_section_raises (token : String)
    (h : (pySplit '%' token).get? 1 = some "") :
    Column_Formatter_init token = .error RenderErr.indexError := by
  match htk : pySplit '%' token with
  | [] => rw [htk] at h; exact Option.noConfusion h
  | [t0] => rw [htk] at h; simp [List.get?] at h
  | t0 :: fs :: rest =>
    rw [htk] at h
    simp only [List.get?] at h
    injection h with h
    subst h
    exact init_empty_sec token t0 rest htk

/-- C2 witness: the amended statement at the concrete token `State%`. -/
theorem c2_witness :
    Column_Formatter_init "State%" = .error RenderErr.indexError :=
  c2_empty_percent_section_raises "State%" (by rfl)

/-- C3 counterexample: the token `Foo%-5` has the nonempty remainder `-5`
after the (absent) alignment character, which is not a non-negative
decimal integer, yet the parser does not fail with FormatError as the
claim requires — it accepts the token with width minus five. -/
theorem c3_counterexample :
    Column_Formatter_init "Foo%-5" = .ok ⟨"Foo", '^', some (-5)⟩ ∧
      specNonNegDecimal "-5" = false ∧ ("-5" : String) ≠ "" ∧
      Column_Formatter_init "Foo%-5" ≠ .error (RenderErr.formatError "Foo%-5") := by
  refine ⟨rfl, rfl, by decide, ?_⟩
  intro h
  rw [show Column_Formatter_init "Foo%-5" = .ok ⟨"Foo", '^', some (-5)⟩ from rfl] at h
  exact Except.noConfusion h

/-- C3 (amended): for every token whose percent section is nonempty, after
the optional leading alignment character is consumed the parser fails,
with the FormatError carrying the token verbatim, exactly when the
remaining characters are nonempty and are not accepted by Python's int
parser (which, beyond non-negative decimal integers, also accepts signed
integers, surrounding whitespace and underscore digit separators); in
particular the token `Foo%Q5` fails this way. -/
theorem c3_format_error_iff :
    (∀ token t0 c rest2 rest,
        pySplit '%' token = t0 :: String.mk (c :: rest2) :: rest →
        (Column_Formatter_init token = .error (RenderErr.formatError token) ↔
          (restAfterAlign c rest2 ≠ "" ∧ pyInt (restAfterAlign c rest2) = none))) ∧
      Column_Formatter_init "Foo%Q5" = .error (RenderErr.formatError "Foo%Q5") := by
  constructor
  · intro token t0 c rest2 rest h
    rw [init_cons_cons token t0 c rest2 rest h]
    by_cases hEmpty : restAfterAlign c rest2 = ""
    · rw [if_pos hEmpty]
      simp [hEmpty]
    · rw [if_neg hEmpty]
      cases hp : pyInt (restAfterAlign c rest2) with
      | some w => simp [hp, hEmpty]
      | none => simp [hp, hEmpty]
  · rfl

/-- C3 witness: the general direction applied at the concrete token
`Foo%Q5`, whose remainder `Q5` is nonempty and not Python-parseable. -/
theorem c3_witness :
    Column_Formatter_init "Foo%Q5" = .error (RenderErr.formatError "Foo%Q5") :=
  (c3_format_error_iff.1 "Foo%Q5" "Foo" 'Q' ['5'] [] (by rfl)).mpr ⟨by decide, by rfl⟩

/-- C4 counterexample: parsing the token `Name%-5` produces a column
specification whose width is set and negative, against the claimed
non-negativity. -/
theorem c4_counterexample :
    Column_Formatter_init "Name%-5" = .ok ⟨"Name", '^', some (-5)⟩ ∧ (-5 : Int) < 0 :=
  ⟨rfl, by decide⟩

/-- C4 (amended): every column specification produced by parsing a token
has an alignment among the three characters left angle, caret, right
angle; its width, when set, is an integer but not necessarily
non-negative. -/
theorem c4_alignment_invariant (token : String) (cf : ColumnFormatter)
    (h : Column_Formatter_init token = .ok cf) :
    cf.alignment = '<' ∨ cf.alignment = '^' ∨ cf.alignment = '>' := by
  match htk : pySplit '%' token with
  | [] => exact absurd htk (pySplit_ne_nil '%' token)
  | [t0] =>
    rw [init_one token t0 htk] at h
    cases h
    right; left; rfl
  | t0 :: fs :: rest =>
    match hfs : fs.toList with
    | [] =>
      have hfs0 : fs = "" := by rw [string_eq_mk_toList fs, hfs]
      rw [hfs0] at htk
      rw [init_empty_sec token t0 rest htk] at h
      exact Except.noConfusion h
    | c :: rest2 =>
      have hfs0 : fs = String.mk (c :: rest2) := by rw [string_eq_mk_toList fs, hfs]
      rw [hfs0] at htk
      rw [init_cons_cons token t0 c rest2 rest htk] at h
      have halign : alignOf c = '<' ∨ alignOf c = '^' ∨ alignOf c = '>' := by
        unfold alignOf
        by_cases hc : (c = '<' || c = '^' || c = '>') = true
        · rw [if_pos hc]
          simpa [Bool.or_eq_true, decide_eq_true_eq, or_assoc] using hc
        · rw [if_neg hc]
          right; left; rfl
      split at h
      · cases h; exact halign
      · split at h
        · cases h; exact halign
        · exact Except.noConfusion h

/-- C4 witness: the alignment invariant at the concrete token `JobID%>10`. -/
theorem c4_witness :
    (⟨"JobID", '>', some 10⟩ : ColumnFormatter).alignment = '<' ∨
      (⟨"JobID", '>', some 10⟩ : ColumnFormatter).alignment = '^' ∨
      (⟨"JobID", '>', some 10⟩ : ColumnFormatter).alignment = '>' :=
  c4_alignment_invariant "JobID%>10" ⟨"JobID", '>', some 10⟩ (by rfl)


lemma find?_eq_some_decomp {α : Type} (p : α → Bool) (l : List α) (b : α)
    (h : l.find? p = some b) :
    p b = true ∧ ∃ pre post, l = pre ++ b :: post ∧ ∀ u ∈ pre, p u = false := by
  induction l with
  | nil => exact Option.noConfusion h
  | cons a l ih =>
    by_cases hpa : p a = true
    · rw [List.find?_cons_of_pos _ hpa] at h
      injection h with h
      subst h
      exact ⟨hpa, [], l, rfl, by simp⟩
    · rw [List.find?_cons_of_neg _ hpa] at h
      obtain ⟨hpb, pre, post, he, hpre⟩ := ih h
      refine ⟨hpb, a :: pre, post, by rw [he]; rfl, ?_⟩
      intro u hu
      rcases List.mem_cons.mp hu with h1 | h1
      · subst h1
        exact Bool.not_eq_true _ ▸ eq_false_of_ne_true hpa
      · exact hpre u h1

/-- C7: case-folded title validation: the concrete example `jobid` against
the vocabulary `JobID, State` canonicalizes to `JobID`, `bogus` fails with
the unknown-title error naming `bogus`; in general a success returns the
first vocabulary entry whose casefold matches the requested name's
casefold, with the column's title overwritten by that entry's original
casing, and when no entry matches the validation fails with the
unknown-title error naming the requested title. -/
theorem c7_validate_title :
    (validate_title ⟨"jobid", '^', none⟩ ["JobID", "State"] =
        .ok (⟨"JobID", '^', none⟩, "JobID")) ∧
    (validate_title ⟨"bogus", '^', none⟩ ["JobID", "State"] =
        .error (RenderErr.unknownTitle "bogus")) ∧
    (∀ cf valid cf2 t, validate_title cf valid = .ok (cf2, t) →
        casefold t = casefold cf.title ∧ cf2 = { cf with title := t } ∧
        ∃ pre post, valid = pre ++ t :: post ∧
          ∀ u ∈ pre, casefold u ≠ casefold cf.title) ∧
    (∀ cf valid, (∀ u ∈ valid, casefold u ≠ casefold cf.title) →
        validate_title cf valid = .error (RenderErr.unknownTitle cf.title)) := by
  refine ⟨rfl, rfl, ?_, ?_⟩
  · intro cf valid cf2 t h
    unfold validate_title at h
    cases hf : valid.find? (fun u => casefold u == casefold cf.title) with
    | none => rw [hf] at h; exact Except.noConfusion h
    | some t2 =>
      rw [hf] at h
      injection h with h
      obtain ⟨h1, h2⟩ := Prod.mk.injEq .. ▸ h
      obtain ⟨hpb, pre, post, he, hpre⟩ :=
        find?_eq_some_decomp (fun u => casefold u == casefold cf.title) valid t2 hf
      subst h2
      refine ⟨by simpa using hpb, h1.symm, pre, post, he, ?_⟩
      intro u hu
      have := hpre u hu
      simpa using this
  · intro cf valid hall
    unfold validate_title
    rw [List.find?_eq_none.mpr]
    intro u hu
    simpa using hall u hu

/-- C7 witness: the no-match direction at the concrete title `bogus`. -/
theorem c7_witness :
    validate_title ⟨"bogus", '^', none⟩ ["JobID", "State"] =
      .error (RenderErr.unknownTitle "bogus") :=
  c7_validate_title.2.2.2 ⟨"bogus", '^', none⟩ ["JobID", "State"] (by decide)

lemma foldl_width_spec (es : List String) (a : Int) :
    a ≤ es.foldl
        (fun w e => if w > (e.toList.length : Int) then w else (e.toList.length : Int)) a ∧
    (∀ e ∈ es, (e.toList.length : Int) ≤ es.foldl
        (fun w e => if w > (e.toList.length : Int) then w else (e.toList.length : Int)) a) ∧
    (es.foldl
        (fun w e => if w > (e.toList.length : Int) then w else (e.toList.length : Int)) a = a ∨
      ∃ e ∈ es, es.foldl
        (fun w e => if w > (e.toList.length : Int) then w else (e.toList.length : Int)) a =
          (e.toList.length : Int)) := by
  induction es generalizing a with
  | nil => simp
  | cons e es ih =>
    simp only [List.foldl_cons]
    obtain ⟨ih1, ih2, ih3⟩ :=
      ih (if a > (e.toList.length : Int) then a else (e.toList.length : Int))
    have hstep : a ≤ (if a > (e.toList.length : Int) then a else (e.toList.length : Int)) ∧
        (e.toList.length : Int) ≤
          (if a > (e.toList.length : Int) then a else (e.toList.length : Int)) := by
      split <;> omega
    refine ⟨le_trans hstep.1 ih1, ?_, ?_⟩
    · intro x hx
      rcases List.mem_cons.mp hx with h1 | h1
      · subst h1
        exact le_trans hstep.2 ih1
      · exact ih2 x h1
    · rcases ih3 with h1 | ⟨x, hx, h2⟩
      · rw [h1]
        split
        · left; rfl
        · right
          exact ⟨e, List.mem_cons_self e es, rfl⟩
      · right
        exact ⟨x, List.mem_cons_of_mem e hx, h2⟩

/-- C8: when the width is unset, compute_width sets it to the maximum
string length among the title and every entry (attained by one of them
and bounding all of them) — in particular title State with entries
RUNNING and PD gives width seven — and when the width is already set it
leaves the column specification entirely unchanged. -/
theorem c8_compute_width :
    (∀ cf entries, cf.width = none →
        ∃ m : Int, (compute_width cf entries).width = some m ∧
          (m = (cf.title.toList.length : Int) ∨ ∃ e ∈ entries, m = (e.toList.length : Int)) ∧
          (cf.title.toList.length : Int) ≤ m ∧
          ∀ e ∈ entries, (e.toList.length : Int) ≤ m) ∧
    (∀ cf entries w, cf.width = some w → compute_width cf entries = cf) ∧
    ((compute_width ⟨"State", '^', none⟩ ["RUNNING", "PD"]).width = some 7) := by
  refine ⟨?_, ?_, rfl⟩
  · intro cf entries hw
    obtain ⟨title, al, ww⟩ := cf
    simp only at hw
    subst hw
    obtain ⟨h1, h2, h3⟩ := foldl_width_spec entries (title.toList.length : Int)
    refine ⟨_, rfl, ?_, h1, h2⟩
    rcases h3 with h | h
    · left; exact h
    · right; exact h
  · intro cf entries w hw
    obtain ⟨title, al, ww⟩ := cf
    simp only at hw
    subst hw
    rfl

/-- C8 witness: a column with width already set is returned unchanged. -/
theorem c8_witness :
    compute_width ⟨"State", '^', some 4⟩ ["RUNNING"] = ⟨"State", '^', some 4⟩ :=
  c8_compute_width.2.1 ⟨"State", '^', some 4⟩ ["RUNNING"] 4 rfl

lemma string_append_empty (s : String) : s ++ "" = s :=
  congrArg String.mk (List.append_nil s.data)

lemma format_entry_some (title : String) (al : Char) (w : Int) (entry : String) :
    format_entry ⟨title, al, some w⟩ entry =
      (if w < 0 then .error RenderErr.signInFormatSpec
       else .ok (padAlign al w.toNat (pySliceTo entry w))) := rfl

lemma pySliceTo_nonneg (s : String) (w : Int) (h : 0 ≤ w) :
    pySliceTo s w = String.mk (s.toList.take w.toNat) := by
  unfold pySliceTo
  rw [if_pos h]

/-- C9: with a set non-negative width, format_entry returns the entry
truncated to at most width characters (excess dropped from the end) set
between two runs of spaces filling up exactly to the width, with all the
padding on the right for left alignment, all on the left for right
alignment, and split near-evenly (extra space on the right) for
centering; the entry COMPLETED at width four renders as COMP; formatting
with unset width fails with the unset-width error. -/
theorem c9_format_entry :
    (∀ cf entry w, cf.width = some w → 0 ≤ w →
        ∃ l r : Nat,
          format_entry cf entry =
            .ok (spaces l ++ String.mk (entry.toList.take w.toNat) ++ spaces r) ∧
          l + (entry.toList.take w.toNat).length + r = w.toNat ∧
          (cf.alignment = '<' → l = 0) ∧
          (cf.alignment = '>' → r = 0) ∧
          (cf.alignment ≠ '<' → cf.alignment ≠ '>' → l ≤ r ∧ r ≤ l + 1)) ∧
    (∀ cf entry, cf.width = none →
        format_entry cf entry = .error (RenderErr.unsetWidth cf.title)) ∧
    (format_entry ⟨"State", '<', some 4⟩ "COMPLETED" = .ok "COMP") := by
  refine ⟨?_, ?_, rfl⟩
  · intro cf entry w hw h0
    obtain ⟨title, al, ww⟩ := cf
    simp only at hw
    subst hw
    have hlen : (entry.toList.take w.toNat).length ≤ w.toNat := by
      rw [List.length_take]
      omega
    rw [format_entry_some, if_neg (by omega), pySliceTo_nonneg entry w h0]
    by_cases ha1 : al = '<'
    · subst ha1
      refine ⟨0, w.toNat - (entry.toList.take w.toNat).length, rfl, by omega, ?_, ?_, ?_⟩
      · intro _
        rfl
      · intro h
        simp at h
      · intro h _
        exact absurd rfl h
    · by_cases ha2 : al = '>'
      · subst ha2
        refine ⟨w.toNat - (entry.toList.take w.toNat).length, 0,
          congrArg Except.ok ((string_append_empty _).symm), by omega, ?_, ?_, ?_⟩
        · intro h
          simp at h
        · intro _
          rfl
        · intro _ h
          exact absurd rfl h
      · refine ⟨(w.toNat - (entry.toList.take w.toNat).length) / 2,
          (w.toNat - (entry.toList.take w.toNat).length) -
            (w.toNat - (entry.toList.take w.toNat).length) / 2, ?_, by omega, ?_, ?_, ?_⟩
        · simp only [padAlign]
          rw [if_neg ha1, if_neg ha2]
          rfl
        · intro h
          exact absurd h ha1
        · intro h
          exact absurd h ha2
        · intro _ _
          omega
  · intro cf entry hw
    obtain ⟨title, al, ww⟩ := cf
    simp only at hw
    subst hw
    rfl

/-- C9 witness: the padded-and-truncated form at the concrete column
State, center alignment, width nine, entry State. -/
theorem c9_witness :
    ∃ l r : Nat,
      format_entry ⟨"State", '^', some 9⟩ "State" =
        .ok (spaces l ++ String.mk ("State".toList.take (Int.toNat 9)) ++ spaces r) ∧
      l + ("State".toList.take (Int.toNat 9)).length + r = Int.toNat 9 ∧
      ((⟨"State", '^', some 9⟩ : ColumnFormatter).alignment = '<' → l = 0) ∧
      ((⟨"State", '^', some 9⟩ : ColumnFormatter).alignment = '>' → r = 0) ∧
      ((⟨"State", '^', some 9⟩ : ColumnFormatter).alignment ≠ '<' →
        (⟨"State", '^', some 9⟩ : ColumnFormatter).alignment ≠ '>' → l ≤ r ∧ r ≤ l + 1) :=
  c9_format_entry.1 ⟨"State", '^', some 9⟩ "State" 9 rfl (by decide)


lemma except_bind_ok {e a b : Type} (x : a) (k : a → Except e b) :
    (Except.ok x >>= k) = k x := rfl

lemma except_pure_eq {e a : Type} (x : a) : (pure x : Except e a) = Except.ok x := rfl

lemma add_included_eq (fs : List ColumnFormatter) :
    add_included fs =
      .ok ((if fs.any (fun cf => cf.title == "JobID") then [] else [⟨"JobID", '>', none⟩]) ++
           (if fs.any (fun cf => cf.title == "State") then [] else [⟨"State", '^', none⟩]) ++
           fs) := by
  unfold add_included
  rw [show always_included.reverse = ["State", "JobID%>"] from rfl]
  simp only [List.foldlM_cons, List.foldlM_nil,
    show (pySplit '%' "State").headD "" = "State" from rfl,
    show (pySplit '%' "JobID%>").headD "" = "JobID" from rfl,
    show Column_Formatter_init "State" = .ok ⟨"State", '^', none⟩ from rfl,
    show Column_Formatter_init "JobID%>" = .ok ⟨"JobID", '>', none⟩ from rfl]
  by_cases hS : fs.any (fun cf => cf.title == "State") <;>
    by_cases hJ : fs.any (fun cf => cf.title == "JobID") <;>
    simp only [List.any_eq_true, beq_iff_eq] at hS hJ <;>
    simp [hS, hJ, except_bind_ok, except_pure_eq,
      show (("State" : String) == "JobID") = false from rfl]

/-- C5: building a rendering plan from the empty format string yields the
display list JobID right-aligned then State; in general the
always-included columns absent by bare title are prepended, JobID before
State, in front of the untouched user formatters, and when a user
formatter already carries an always-included title nothing is prepended
for it, so user formatting is preserved. -/
theorem c5_included_columns :
    ((Output_Renderer_init [] "").2.map (fun r => r.formatters) =
        .ok [⟨"JobID", '>', none⟩, ⟨"State", '^', none⟩]) ∧
    (∀ fs, add_included fs =
        .ok ((if fs.any (fun cf => cf.title == "JobID") then [] else [⟨"JobID", '>', none⟩]) ++
             (if fs.any (fun cf => cf.title == "State") then [] else [⟨"State", '^', none⟩]) ++
             fs)) ∧
    (∀ fs, fs.any (fun cf => cf.title == "JobID") → fs.any (fun cf => cf.title == "State") →
        add_included fs = .ok fs) := by
  refine ⟨rfl, add_included_eq, ?_⟩
  intro fs hJ hS
  rw [add_included_eq, if_pos hJ, if_pos hS]
  rfl

/-- C5 witness: a user-formatted JobID column (left alignment, width five)
together with a State column passes through add_included unchanged. -/
theorem c5_witness :
    add_included [⟨"JobID", '<', some 5⟩, ⟨"State", '^', none⟩] =
      .ok [⟨"JobID", '<', some 5⟩, ⟨"State", '^', none⟩] :=
  c5_included_columns.2.2 [⟨"JobID", '<', some 5⟩, ⟨"State", '^', none⟩] (by rfl) (by rfl)

lemma mem_correct_columns (qc : List String) (x : String) :
    x ∈ correct_columns qc ↔
      (∃ c ∈ qc, x ∈ (derivedLookup c).getD [c]) ∨ x ∈ required := by
  unfold correct_columns
  rw [List.mem_dedup, List.mem_append, List.mem_flatten]
  constructor
  · rintro (⟨l, hl, hx⟩ | hx)
    · obtain ⟨c, hc, rfl⟩ := List.mem_map.mp hl
      exact Or.inl ⟨c, hc, hx⟩
    · exact Or.inr hx
  · rintro (⟨c, hc, hx⟩ | hx)
    · exact Or.inl ⟨(derivedLookup c).getD [c],
        List.mem_map_of_mem (fun c => (derivedLookup c).getD [c]) hc, hx⟩
    · exact Or.inr hx

/-- C6: the query-column set consists exactly of the names obtained by
replacing each derived key among the validated display names by its
prerequisite list and keeping other names, together with the required
names JobID, JobIDRaw and State, which are present for every request; for
the display request CPUEff the resulting set is exactly the three CPUEff
prerequisites plus the three required names, also end to end through the
constructor. -/
theorem c6_query_columns :
    (∀ qc x, x ∈ correct_columns qc ↔
        (∃ c ∈ qc, x ∈ (derivedLookup c).getD [c]) ∨ x ∈ required) ∧
    (∀ qc r, r ∈ required → r ∈ correct_columns qc) ∧
    ((correct_columns ["CPUEff"]).toFinset =
        ({"TotalCPU", "AllocCPUS", "Elapsed", "JobID", "JobIDRaw", "State"} : Finset String)) ∧
    ((Output_Renderer_init [] "CPUEff").2.map (fun r => r.query_columns) =
        .ok ["TotalCPU", "AllocCPUS", "Elapsed", "JobID", "JobIDRaw", "State"]) := by
  refine ⟨mem_correct_columns, ?_, ?_, rfl⟩
  · intro qc r hr
    exact (mem_correct_columns qc r).mpr (Or.inr hr)
  · decide

/-- C6 witness: the required name JobIDRaw is queried for the CPUEff
display request. -/
theorem c6_witness : "JobIDRaw" ∈ correct_columns ["CPUEff"] :=
  c6_query_columns.2.1 ["CPUEff"] "JobIDRaw" (by decide)

/-- C10: constructing a renderer appends the three derived keys CPUEff,
MemEff, TimeEff to the caller's vocabulary list, so the list observed
after construction differs from the one supplied; this holds for the
default format string and for every format string whose formatters build
successfully. -/
theorem c10_vocab_mutated (valid_titles : List String) :
    (Output_Renderer_init valid_titles default_format_str).1 =
      valid_titles ++ ["CPUEff", "MemEff", "TimeEff"] ∧
    (Output_Renderer_init valid_titles default_format_str).1 ≠ valid_titles ∧
    ∀ format_str fmts, build_formatters format_str = .ok fmts →
      (Output_Renderer_init valid_titles format_str).1 = valid_titles ++ derivedKeys := by
  have hd : build_formatters default_format_str =
      .ok [⟨"JobID", '>', none⟩, ⟨"State", '^', none⟩, ⟨"Elapsed", '>', none⟩,
        ⟨"CPUEff", '^', none⟩, ⟨"MemEff", '^', none⟩] := rfl
  have h1 : (Output_Renderer_init valid_titles default_format_str).1 =
      valid_titles ++ ["CPUEff", "MemEff", "TimeEff"] := by
    unfold Output_Renderer_init
    rw [hd]
    rfl
  refine ⟨h1, ?_, ?_⟩
  · intro h
    rw [h1] at h
    have := congrArg List.length h
    simp [List.length_append] at this
  · intro format_str fmts hb
    unfold Output_Renderer_init
    rw [hb]

/-- C10 witness: the general statement at the concrete vocabulary JobID
and the concrete format string State. -/
theorem c10_witness :
    (Output_Renderer_init ["JobID"] "State").1 = ["JobID"] ++ derivedKeys :=
  (c10_vocab_mutated ["JobID"]).2.2 "State" [⟨"State", '^', none⟩] (by rfl)

/-- C1: format_jobs does not render one row per job record — the body is
marked unfinished in the source: it ignores the job list entirely
(returning the same string for any jobs) and produces only the single
header line, the bold titles joined by two spaces, with no newline in it. -/
theorem c1_format_jobs_header_only :
    (∀ r jobs, format_jobs r jobs = format_jobs r []) ∧
    ((Output_Renderer_init ["JobID", "JobIDRaw", "State"] "JobID%>6,State%9").2.map
        (fun r => format_jobs r [⟨⟩]) =
      .ok (.ok "\x1b[1m JobID\x1b[0m  \x1b[1m  State  \x1b[0m")) ∧
    (("\x1b[1m JobID\x1b[0m  \x1b[1m  State  \x1b[0m").toList.count '\n' = 0) :=
  ⟨fun _ _ => rfl, rfl, rfl⟩

end Reportseff
